import Mathlib

/-!
Verification of the firecrawl scrapeURL acquisition pipeline.

This file gives a shallow embedding of the orchestration pipeline found in
apps/api/src/scraper/scrapeURL: the capability matrix and engine selection
(engines/index.ts), the specialty content detector
(engines/utils/specialtyHandler.ts), the PDF engine (engines/pdf/index.ts),
and the orchestrator itself (selectEngineAndScrape, scrapeURLSingle).
External collaborators that live outside the embedded sources (the index
engine internals, the document parser, the RunPod PDF service, the download
helper, the postprocessor implementations) are modelled as explicit inputs
of an environment record, and observable side effects (engine invocations,
downloads, temp-file writes and deletions) are recorded in an event log.
-/

namespace Firecrawl

/-- Feature flags, from the featureFlags list in engines/index.ts. -/
inductive FeatureFlag where
  | actions
  | waitFor
  | screenshot
  | screenshotFullScreen
  | atsv
  | location
  | mobile
  | skipTlsVerification
  | useFastMode
  | stealthProxy
  | branding
  | disableAdblock
deriving DecidableEq, Repr

instance : Fintype FeatureFlag where
  elems := {FeatureFlag.actions, FeatureFlag.waitFor, FeatureFlag.screenshot,
    FeatureFlag.screenshotFullScreen, FeatureFlag.atsv, FeatureFlag.location,
    FeatureFlag.mobile, FeatureFlag.skipTlsVerification, FeatureFlag.useFastMode,
    FeatureFlag.stealthProxy, FeatureFlag.branding, FeatureFlag.disableAdblock}
  complete := by intro x; cases x <;> decide

/-- Engines, from the Engine union type in engines/index.ts. -/
inductive Engine where
  | fireEngineChromeCDP
  | playwright
  | fetch
  | index
deriving DecidableEq, Repr

/-- Capability table, transcribed from the engineOptions record in
engines/index.ts (lines 89 to 158). -/
def engineSupports (engine : Engine) (flag : FeatureFlag) : Bool :=
  match engine, flag with
  | .index, .actions => false
  | .index, .waitFor => true
  | .index, .screenshot => true
  | .index, .screenshotFullScreen => true
  | .index, .atsv => false
  | .index, .location => true
  | .index, .mobile => true
  | .index, .skipTlsVerification => true
  | .index, .useFastMode => true
  | .index, .stealthProxy => false
  | .index, .branding => false
  | .index, .disableAdblock => true
  | .fireEngineChromeCDP, .actions => true
  | .fireEngineChromeCDP, .waitFor => true
  | .fireEngineChromeCDP, .screenshot => true
  | .fireEngineChromeCDP, .screenshotFullScreen => true
  | .fireEngineChromeCDP, .atsv => false
  | .fireEngineChromeCDP, .location => true
  | .fireEngineChromeCDP, .mobile => true
  | .fireEngineChromeCDP, .skipTlsVerification => true
  | .fireEngineChromeCDP, .useFastMode => false
  | .fireEngineChromeCDP, .stealthProxy => true
  | .fireEngineChromeCDP, .branding => true
  | .fireEngineChromeCDP, .disableAdblock => false
  | .playwright, .actions => false
  | .playwright, .waitFor => true
  | .playwright, .screenshot => false
  | .playwright, .screenshotFullScreen => false
  | .playwright, .atsv => false
  | .playwright, .location => false
  | .playwright, .mobile => false
  | .playwright, .skipTlsVerification => true
  | .playwright, .useFastMode => false
  | .playwright, .stealthProxy => false
  | .playwright, .branding => false
  | .playwright, .disableAdblock => false
  | .fetch, .actions => false
  | .fetch, .waitFor => false
  | .fetch, .screenshot => false
  | .fetch, .screenshotFullScreen => false
  | .fetch, .atsv => false
  | .fetch, .location => false
  | .fetch, .mobile => false
  | .fetch, .skipTlsVerification => true
  | .fetch, .useFastMode => true
  | .fetch, .stealthProxy => false
  | .fetch, .branding => false
  | .fetch, .disableAdblock => false

/-- The set of flags an engine supports, read off the capability table.
This is the spec-side notion of capabilities(E). -/
def capabilities (engine : Engine) : Finset FeatureFlag :=
  Finset.univ.filter (fun flag => engineSupports engine flag)

/-- Embedding of getUnsupportedFeatures from engines/index.ts (lines 173
to 194): first collect the table entries that are both supported and
requested, then remove them from a copy of the requested set. -/
def getUnsupportedFeatures (featureFlags : Finset FeatureFlag) (engine : Engine) :
    Finset FeatureFlag :=
  let supportedFlags : Finset FeatureFlag :=
    Finset.univ.filter
      (fun flag => engineSupports engine flag && decide (flag ∈ featureFlags))
  featureFlags.filter (fun flag => decide (flag ∉ supportedFlags))

/-- C2: getUnsupportedFeatures computes exactly the set difference between
the requested flags and the capability table of the engine; when the engine
supports every requested flag, the result is empty. -/
theorem getUnsupportedFeatures_eq_sdiff (F : Finset FeatureFlag) (E : Engine) :
    getUnsupportedFeatures F E = F \ capabilities E ∧
    ((∀ f ∈ F, engineSupports E f) → getUnsupportedFeatures F E = ∅) := by
  have hmain : getUnsupportedFeatures F E = F \ capabilities E := by
    ext f
    simp [getUnsupportedFeatures, capabilities]
    tauto
  refine ⟨hmain, fun h => ?_⟩
  rw [hmain, Finset.sdiff_eq_empty_iff_subset]
  intro f hf
  simp [capabilities, h f hf]

/-- Witness for the set-difference characterization: evaluated at the
flag set of a request asking for waitFor and screenshot against the
full-capability backend, which supports both. -/
theorem getUnsupportedFeatures_eq_sdiff_witness :
    getUnsupportedFeatures {FeatureFlag.waitFor, FeatureFlag.screenshot}
        Engine.fireEngineChromeCDP =
      ({FeatureFlag.waitFor, FeatureFlag.screenshot} : Finset FeatureFlag) \
        capabilities Engine.fireEngineChromeCDP ∧
    getUnsupportedFeatures {FeatureFlag.waitFor, FeatureFlag.screenshot}
        Engine.fireEngineChromeCDP = ∅ :=
  ⟨(getUnsupportedFeatures_eq_sdiff
      {FeatureFlag.waitFor, FeatureFlag.screenshot} Engine.fireEngineChromeCDP).1,
   (getUnsupportedFeatures_eq_sdiff
      {FeatureFlag.waitFor, FeatureFlag.screenshot} Engine.fireEngineChromeCDP).2
      (by decide)⟩

/-- Membership characterization of getUnsupportedFeatures, shared by the
downstream selection lemmas. -/
theorem mem_getUnsupportedFeatures (F : Finset FeatureFlag) (E : Engine)
    (f : FeatureFlag) :
    f ∈ getUnsupportedFeatures F E ↔ f ∈ F ∧ ¬engineSupports E f := by
  simp [getUnsupportedFeatures]
  tauto

/-! String helpers. The TypeScript sources use startsWith, toLowerCase,
includes and truthiness checks on strings; these are embedded as
list-of-characters operations so that concrete witnesses reduce in the
kernel. -/

/-- Embedding of String.prototype.startsWith. -/
def strStartsWith (s pat : String) : Bool :=
  List.isPrefixOf pat.data s.data

/-- Embedding of String.prototype.toLowerCase. -/
def strToLower (s : String) : String :=
  String.mk (s.data.map Char.toLower)

/-- Embedding of the emptiness test behind JavaScript string truthiness. -/
def strIsEmpty (s : String) : Bool :=
  s.data.isEmpty

/-- JavaScript truthiness of an optional string: present and non-empty. -/
def optStrTruthy (s : Option String) : Bool :=
  match s with
  | some v => !strIsEmpty v
  | none => false

/-- Occurrence of a character pattern inside a character list. -/
def listHasSub (pat : List Char) : List Char → Bool
  | [] => pat.isEmpty
  | c :: rest => List.isPrefixOf pat (c :: rest) || listHasSub pat rest

/-- Embedding of String.prototype.includes. -/
def strHasSub (s pat : String) : Bool :=
  listHasSub pat.data s.data

/-! Data model: request options, internal options and the Meta record,
from the type declarations in scrapeURL (the orchestrator module). Fields
not consulted by the embedded pipeline code are omitted. -/

/-- Proxy tier actually used by an engine. -/
inductive Proxy where
  | basic
  | stealth
deriving DecidableEq, Repr

/-- Requested proxy option of a scrape. -/
inductive ProxyOption where
  | basic
  | stealth
  | auto
deriving DecidableEq, Repr

/-- The action kinds the pipeline inspects (screenshot and pdf drive the
zero-data-retention checks; everything else is opaque to it). -/
inductive ActionKind where
  | screenshot
  | pdf
  | other
deriving DecidableEq, Repr

/-- Custom screenshot viewport. -/
structure Viewport where
  width : Nat
  height : Nat
deriving DecidableEq, Repr

/-- The screenshot format options consulted by the pipeline. -/
structure ScreenshotFormat where
  fullPage : Bool
  viewport : Option Viewport
  quality : Option Nat
deriving DecidableEq, Repr

/-- Modelled from the spec: hasFormatOfType of lib/format-utils is outside
the embedded sources; the requested formats are modelled as a record with
one optional entry per format kind the pipeline consults. -/
structure Formats where
  screenshot : Option ScreenshotFormat
  changeTracking : Bool
  branding : Bool
deriving DecidableEq, Repr

/-- Modelled from the spec: shouldParsePDF and getPDFMaxPages of
controllers/v2/types are outside the embedded sources; the parsers option
is modelled by the two values they extract. -/
structure Parsers where
  parsePdf : Bool
  pdfMaxPages : Option Nat
deriving DecidableEq, Repr

/-- The scrape options consulted by the embedded pipeline code. -/
structure ScrapeOptions where
  formats : Formats
  parsers : Parsers
  maxAge : Option Nat
  headers : Option (List (String × String))
  actions : Option (List ActionKind)
  proxy : Option ProxyOption
  waitFor : Nat
  mobile : Bool
  skipTlsVerification : Bool
  fastMode : Bool
  location : Bool
  blockAds : Option Bool
deriving DecidableEq, Repr

/-- The internal options consulted by the embedded pipeline code. -/
structure InternalOptions where
  forceEngine : Option Engine
  atsv : Bool
  zeroDataRetention : Bool
deriving DecidableEq, Repr

/-- A prefetch descriptor: the pdfPrefetch and documentPrefetch slot
payload of the Meta type. -/
structure Prefetch where
  filePath : String
  url : Option String
  status : Nat
  proxyUsed : Proxy
  contentType : Option String
deriving DecidableEq, Repr

/-- An inline binary payload attached to an engine result. -/
structure BinaryFile where
  name : Option String
  content : String
deriving DecidableEq, Repr

/-- PDF metadata attached to an engine result. -/
structure PdfMetadataInfo where
  numPages : Nat
  title : Option String
deriving DecidableEq, Repr

/-- Embedding of EngineScrapeResult from engines/index.ts. The cache
provenance timestamp is a natural number. -/
structure EngineScrapeResult where
  url : String
  html : String
  markdown : Option String
  statusCode : Nat
  error : Option String
  screenshot : Option String
  cacheInfo : Option Nat
  contentType : Option String
  postprocessorsUsed : Option (List String)
  proxyUsed : Option Proxy
  binaryFile : Option BinaryFile
  pdfMetadata : Option PdfMetadataInfo
deriving DecidableEq, Repr

/-- Embedding of the Meta record. The prefetch slots use two nested
options: none is the undefined state (no prefetch attempted yet), some
none is the null state (prefetch came back empty), some (some p) is a
filled slot. The aborted flag models the abort manager having fired. -/
structure Meta where
  url : String
  rewrittenUrl : Option String
  options : ScrapeOptions
  internalOptions : InternalOptions
  featureFlags : Finset FeatureFlag
  pdfPrefetch : Option (Option Prefetch)
  documentPrefetch : Option (Option Prefetch)
  aborted : Bool

/-- Embedding of buildFeatureFlags from the orchestrator (lines 153 to
209 of the embedded source). -/
def buildFeatureFlags (options : ScrapeOptions) (internalOptions : InternalOptions) :
    Finset FeatureFlag :=
  (if options.actions.isSome then {FeatureFlag.actions} else ∅) ∪
  (match options.formats.screenshot with
    | some s => if s.fullPage then {FeatureFlag.screenshotFullScreen} else {FeatureFlag.screenshot}
    | none => ∅) ∪
  (if options.formats.branding then {FeatureFlag.branding} else ∅) ∪
  (if options.waitFor ≠ 0 then {FeatureFlag.waitFor} else ∅) ∪
  (if internalOptions.atsv then {FeatureFlag.atsv} else ∅) ∪
  (if options.location then {FeatureFlag.location} else ∅) ∪
  (if options.mobile then {FeatureFlag.mobile} else ∅) ∪
  (if options.skipTlsVerification then {FeatureFlag.skipTlsVerification} else ∅) ∪
  (if options.fastMode then {FeatureFlag.useFastMode} else ∅) ∪
  (if options.proxy = some ProxyOption.stealth then {FeatureFlag.stealthProxy} else ∅) ∪
  (if options.blockAds = some false then {FeatureFlag.disableAdblock} else ∅)

/-! Specialty content detection, from engines/utils/specialtyHandler.ts. -/

/-- The two specialty payload classes. -/
inductive SpecialtyType where
  | pdf
  | document
deriving DecidableEq, Repr

/-- Detector output, from the SpecialtyPlan type. -/
structure SpecialtyPlan where
  type : SpecialtyType
  contentType : Option String
  prefetch : Option Prefetch
deriving DecidableEq, Repr

/-- Detector input, from the SpecialtyDetectionInput type. -/
structure SpecialtyDetectionInput where
  headers : Option (List (String × String))
  contentType : Option String
  body : Option String
  binaryFile : Option BinaryFile
  url : Option String
  status : Option Nat
  proxyUsed : Option Proxy
deriving DecidableEq, Repr

/-- Observable side effects of the pipeline, recorded in an event log. -/
inductive Event where
  | invokeEngine (engine : Engine)
  | downloadFile
  | writeTempFile (path : String)
  | pdfParserStart
  | documentParserStart
  | unlinkTempFile (path : String)
deriving DecidableEq, Repr

/-- The known office document media types, from the documentTypes list. -/
def documentTypes : List String :=
  ["application/vnd.openxmlformats-officedocument.wordprocessingml.document",
   "application/vnd.openxmlformats-officedocument.spreadsheetml.sheet",
   "application/vnd.ms-excel",
   "application/msword",
   "application/rtf",
   "text/rtf",
   "application/vnd.oasis.opendocument.text"]

/-- Embedding of getHeaderContentType: the fallback wins when truthy,
otherwise a case-insensitive header lookup. -/
def getHeaderContentType (headers : Option (List (String × String)))
    (fallback : Option String) : Option String :=
  match fallback with
  | some f => if strIsEmpty f then ((headers.getD []).find? (fun x => strToLower x.1 == "content-type")).map (fun x => x.2) else some f
  | none => ((headers.getD []).find? (fun x => strToLower x.1 == "content-type")).map (fun x => x.2)

/-- Embedding of getDocumentExtension. -/
def getDocumentExtension (contentType : Option String) : String :=
  match contentType with
  | none => "tmp"
  | some ct =>
    if strIsEmpty ct then "tmp"
    else if strHasSub ct "wordprocessingml" || strHasSub ct "msword" then "docx"
    else if strHasSub ct "spreadsheetml" || strHasSub ct "ms-excel" then "xlsx"
    else if strHasSub ct "opendocument.text" then "odt"
    else if strHasSub ct "rtf" then "rtf"
    else "tmp"

/-- Embedding of hasPdfSignature. -/
def hasPdfSignature (body : Option String) (binaryContent : Option String) : Bool :=
  let raw := body.getD ""
  let base64 := binaryContent.getD ""
  strStartsWith raw "%PDF-" || strStartsWith raw "JVBERi0" || strStartsWith base64 "JVBERi0"

/-- Embedding of hasDocumentSignature. -/
def hasDocumentSignature (body : Option String) (binaryContent : Option String) : Bool :=
  let raw := body.getD ""
  let base64 := binaryContent.getD ""
  strStartsWith raw "PK" || strStartsWith raw "UEsD" || strStartsWith base64 "UEsD"

/-- Embedding of base64ToPrefetch. The write to the temp file is recorded
as a writeTempFile event and modelled as succeeding; tmpId stands for the
random UUID in the generated file name. -/
def base64ToPrefetch (tmpId : String) (fileExtension : String)
    (url : Option String) (status : Option Nat) (proxyUsed : Option Proxy)
    (contentType : Option String) : Prefetch × List Event :=
  let filePath := "/tmp/tempFile-" ++ tmpId ++ "." ++ fileExtension
  (⟨filePath, url, status.getD 200, proxyUsed.getD Proxy.basic, contentType⟩,
   [Event.writeTempFile filePath])

/-- Embedding of detectSpecialtyPlan (specialtyHandler.ts lines 134 to
212). Returns the optional plan and the temp-file write events. -/
def detectSpecialtyPlan (tmpId : String) (input : SpecialtyDetectionInput) :
    Option SpecialtyPlan × List Event :=
  let contentType := getHeaderContentType input.headers input.contentType
  let normalizedContentType := contentType.map strToLower
  let binaryContent := input.binaryFile.map (fun b => b.content)
  if !optStrTruthy normalizedContentType && !optStrTruthy input.body &&
      !optStrTruthy binaryContent then
    (none, [])
  else
    let isDocument :=
      match normalizedContentType with
      | some ct => documentTypes.any (fun t => strStartsWith ct t)
      | none => false
    let isPdf :=
      normalizedContentType == some "application/pdf" ||
        (match normalizedContentType with
          | some ct => strStartsWith ct "application/pdf;"
          | none => false)
    let isOctetStream :=
      normalizedContentType == some "application/octet-stream" ||
        (match normalizedContentType with
          | some ct => strStartsWith ct "application/octet-stream;"
          | none => false)
    if isDocument || (isOctetStream && hasDocumentSignature input.body binaryContent) then
      if optStrTruthy binaryContent then
        let (p, evs) := base64ToPrefetch tmpId
          (getDocumentExtension normalizedContentType)
          input.url input.status input.proxyUsed normalizedContentType
        (some ⟨SpecialtyType.document, normalizedContentType, some p⟩, evs)
      else
        (some ⟨SpecialtyType.document, normalizedContentType, none⟩, [])
    else if isPdf || (isOctetStream && hasPdfSignature input.body binaryContent) then
      if optStrTruthy binaryContent then
        let (p, evs) := base64ToPrefetch tmpId "pdf"
          input.url input.status input.proxyUsed normalizedContentType
        (some ⟨SpecialtyType.pdf, normalizedContentType, some p⟩, evs)
      else
        (some ⟨SpecialtyType.pdf, normalizedContentType, none⟩, [])
    else if !optStrTruthy normalizedContentType &&
        hasDocumentSignature input.body binaryContent then
      (some ⟨SpecialtyType.document, normalizedContentType, none⟩, [])
    else if !optStrTruthy normalizedContentType &&
        hasPdfSignature input.body binaryContent then
      (some ⟨SpecialtyType.pdf, normalizedContentType, none⟩, [])
    else
      (none, [])

/-- A detector input with every field absent. -/
def emptyDetectionInput : SpecialtyDetectionInput :=
  ⟨none, none, none, none, none, none, none⟩

/-- C4: the four classification cases of detectSpecialtyPlan. A pdf
content type yields a pdf plan; a body with the raw PDF signature and no
content type yields a pdf plan with no content type; an octet-stream
payload whose base64 content starts with UEsD yields a document plan with
a prefetch descriptor whose file path was written to disk; and an input
with no content type, body or binary payload yields no plan. -/
theorem detectSpecialtyPlan_cases :
    detectSpecialtyPlan "u1" { emptyDetectionInput with contentType := some "application/pdf" } =
      (some ⟨SpecialtyType.pdf, some "application/pdf", none⟩, []) ∧
    detectSpecialtyPlan "u1" { emptyDetectionInput with body := some "%PDF-1.5" } =
      (some ⟨SpecialtyType.pdf, none, none⟩, []) ∧
    (detectSpecialtyPlan "u1"
      { emptyDetectionInput with
          contentType := some "application/octet-stream",
          binaryFile := some ⟨none, "UEsDBA=="⟩ } =
      (some ⟨SpecialtyType.document, some "application/octet-stream",
        some ⟨"/tmp/tempFile-u1.tmp", none, 200, Proxy.basic,
          some "application/octet-stream"⟩⟩,
       [Event.writeTempFile "/tmp/tempFile-u1.tmp"])) ∧
    detectSpecialtyPlan "u1" emptyDetectionInput = (none, []) := by
  refine ⟨?_, ?_, ?_, ?_⟩ <;> decide

/-! Error taxonomy, from scrapeURL/error.ts and lib/error.ts as used by
the embedded pipeline code. -/

/-- The error kinds thrown by the embedded pipeline paths. -/
inductive Err where
  | indexMiss
  | noCachedData
  | actionsNotSupported
  | brandingNotSupported
  | engineError (msg : String)
  | zdrViolation (what : String)
  | pdfPrefetchFailed
  | pdfInsufficientTime (pages : Nat) (neededMs : Nat)
  | aborted
  | engineFailure (msg : String)
deriving DecidableEq, Repr

/-- Result of the downloadFile helper (engines/utils/downloadFile.ts,
outside the embedded sources): temp file path plus the response fields the
callers read. -/
structure Download where
  tempFilePath : String
  url : String
  status : Nat
  contentTypeHeader : Option String
deriving DecidableEq, Repr

/-- Output of the PDF processors (RunPod MU or pdf-parse). -/
structure PDFProcessorResult where
  html : String
  markdown : Option String
deriving DecidableEq, Repr

/-- A postprocessor: name, predicate over the final url and the applied
names recorded so far, and a run function where none models a thrown
exception. -/
structure Postprocessor where
  name : String
  shouldRun : String → Option (List String) → Bool
  run : EngineScrapeResult → Option EngineScrapeResult

/-- The environment: static configuration plus the behaviour of every
external collaborator the pipeline invokes (engines, download helper,
PDF metadata reader, PDF processors, document parser, postprocessors). -/
structure Env where
  useIndexService : Bool
  indexWriteOnly : Bool
  fireEngineConfigured : Bool
  playwrightConfigured : Bool
  runEngine : Engine → Except Err EngineScrapeResult
  download : Except Err Download
  fileBase64 : String
  pdfNumPages : Nat
  pdfTitle : Option String
  scrapeTimeout : Option Nat
  pdfParse : Except Err PDFProcessorResult
  documentScrape : Except Err EngineScrapeResult
  unlinkOk : Bool
  tmpId : String
  postprocessors : List Postprocessor

/-! The PDF engine, from engines/pdf/index.ts. -/

/-- The content type guard of scrapePDF: a truthy content type that does
not include application/pdf. -/
def pdfContentTypeMismatch (contentType : Option String) : Bool :=
  match contentType with
  | some s => !strIsEmpty s && !strHasSub s "application/pdf"
  | none => false

/-- The milliseconds-per-page constant of engines/pdf/index.ts. -/
def millisecondsPerPage : Nat := 150

/-- The effective page count of scrapePDF: the page count reported by the
PDF metadata reader, capped by the optional maxPages parser option. -/
def effectivePageCount (env : Env) (meta : Meta) : Nat :=
  match meta.options.parsers.pdfMaxPages with
  | some m => min env.pdfNumPages m
  | none => env.pdfNumPages

/-- The body of the try block of scrapePDF: read the temp file, return it
raw when parsing is disabled, otherwise check the page-time budget and run
the PDF processor (RunPod MU or pdf-parse, both modelled by env.pdfParse). -/
def scrapePDFTryBody (env : Env) (meta : Meta) (responseUrl : String)
    (statusCode : Nat) (contentType : Option String) (proxyUsed : Proxy) :
    Except Err EngineScrapeResult × List Event :=
  if !meta.options.parsers.parsePdf then
    (Except.ok
      { url := responseUrl, html := env.fileBase64, markdown := some env.fileBase64,
        statusCode, error := none, screenshot := none, cacheInfo := none,
        contentType, postprocessorsUsed := none, proxyUsed := some proxyUsed,
        binaryFile := none, pdfMetadata := none }, [])
  else if (match env.scrapeTimeout with
      | some t => decide (effectivePageCount env meta * millisecondsPerPage > t)
      | none => false) then
    (Except.error (Err.pdfInsufficientTime (effectivePageCount env meta)
      (effectivePageCount env meta * millisecondsPerPage + 5000)), [])
  else
    match env.pdfParse with
    | Except.error e => (Except.error e, [])
    | Except.ok r =>
      (Except.ok
        { url := responseUrl, html := r.html, markdown := r.markdown,
          statusCode, error := none, screenshot := none, cacheInfo := none,
          contentType, postprocessorsUsed := none, proxyUsed := some proxyUsed,
          binaryFile := none,
          pdfMetadata := some ⟨effectivePageCount env meta, env.pdfTitle⟩ }, [])

/-- Embedding of scrapePDF (engines/pdf/index.ts lines 248 to 399). The
pdfParserStart event marks the invocation; the finally block is modelled
by appending exactly one unlinkTempFile event around the try body, with an
unlink failure being only logged (the result does not depend on
env.unlinkOk). The content type guard runs before the try block, exactly
as in the source. -/
def scrapePDF (env : Env) (meta : Meta) : Except Err EngineScrapeResult × List Event :=
  let entry := [Event.pdfParserStart]
  match meta.pdfPrefetch with
  | some (some p) =>
    if pdfContentTypeMismatch p.contentType then
      (Except.error Err.pdfPrefetchFailed, entry)
    else
      let (r, evs) := scrapePDFTryBody env meta
        (p.url.getD (meta.rewrittenUrl.getD meta.url)) p.status p.contentType p.proxyUsed
      (r, entry ++ evs ++ [Event.unlinkTempFile p.filePath])
  | _ =>
    match env.download with
    | Except.error e => (Except.error e, entry ++ [Event.downloadFile])
    | Except.ok d =>
      if pdfContentTypeMismatch d.contentTypeHeader then
        (Except.error Err.pdfPrefetchFailed, entry ++ [Event.downloadFile])
      else
        let (r, evs) := scrapePDFTryBody env meta d.url d.status d.contentTypeHeader Proxy.basic
        (r, entry ++ [Event.downloadFile] ++ evs ++ [Event.unlinkTempFile d.tempFilePath])

/-! Concrete sample values used by closed theorems and witnesses. -/

/-- A plain scrape options record with no special feature requested. -/
def defaultOptions : ScrapeOptions :=
  { formats := ⟨none, false, false⟩, parsers := ⟨true, none⟩, maxAge := none,
    headers := none, actions := none, proxy := none, waitFor := 0,
    mobile := false, skipTlsVerification := true, fastMode := false,
    location := false, blockAds := none }

/-- Plain internal options. -/
def defaultInternal : InternalOptions := ⟨none, false, false⟩

/-- Builds a Meta record the way buildMetaObject does: feature flags are
derived from the options, the prefetch slots start undefined. -/
def mkMeta (url : String) (options : ScrapeOptions) (internalOptions : InternalOptions) :
    Meta :=
  { url, rewrittenUrl := none, options, internalOptions,
    featureFlags := buildFeatureFlags options internalOptions,
    pdfPrefetch := none, documentPrefetch := none, aborted := false }

/-- A sample successful live engine result. -/
def sampleResult : EngineScrapeResult :=
  { url := "https://example.com/", html := "<html></html>", markdown := none,
    statusCode := 200, error := none, screenshot := none, cacheInfo := none,
    contentType := some "text/html", postprocessorsUsed := none,
    proxyUsed := some Proxy.basic, binaryFile := none, pdfMetadata := none }

/-- A sample environment where every collaborator succeeds. -/
def defaultEnv : Env :=
  { useIndexService := true, indexWriteOnly := false,
    fireEngineConfigured := false, playwrightConfigured := false,
    runEngine := fun _ => Except.ok sampleResult,
    download := Except.ok ⟨"/tmp/dl.pdf", "https://example.com/file.pdf", 200,
      some "application/pdf"⟩,
    fileBase64 := "JVBERi0=", pdfNumPages := 1, pdfTitle := none,
    scrapeTimeout := none, pdfParse := Except.ok ⟨"parsed", some "parsed"⟩,
    documentScrape := Except.ok sampleResult, unlinkOk := true, tmpId := "u",
    postprocessors := [] }

/-- C9: evaluation at the failing input. With a bound prefetch whose
content type is text/html, scrapePDF throws pdfPrefetchFailed before
entering the try block, and the event log contains no unlinkTempFile
event: the temp file at the bound path is never deleted on this exit
path, contradicting the guaranteed-cleanup claim. The exit paths that
reach the try block (second conjunct: a normal parse) do unlink exactly
once. -/
theorem scrapePDF_mismatch_skips_unlink :
    scrapePDF defaultEnv
      { mkMeta "https://example.com/doc" defaultOptions defaultInternal with
        pdfPrefetch := some (some ⟨"/tmp/pref.bin", some "https://example.com/doc",
          200, Proxy.basic, some "text/html"⟩) } =
      (Except.error Err.pdfPrefetchFailed, [Event.pdfParserStart]) ∧
    scrapePDF defaultEnv
      { mkMeta "https://example.com/doc" defaultOptions defaultInternal with
        pdfPrefetch := some (some ⟨"/tmp/pref.pdf", some "https://example.com/doc",
          200, Proxy.basic, some "application/pdf"⟩) } =
      (Except.ok
        { url := "https://example.com/doc", html := "parsed", markdown := some "parsed",
          statusCode := 200, error := none, screenshot := none, cacheInfo := none,
          contentType := some "application/pdf", postprocessorsUsed := none,
          proxyUsed := some Proxy.basic, binaryFile := none,
          pdfMetadata := some ⟨1, none⟩ },
       [Event.pdfParserStart, Event.unlinkTempFile "/tmp/pref.pdf"]) := by
  constructor <;> rfl

/-! Engine selection and the cache gating predicate, from
engines/index.ts. -/

/-- Embedding of the nullish-coalescing operator on options. -/
def optOr {α : Type} (a b : Option α) : Option α :=
  match a with
  | some x => some x
  | none => b

/-- Embedding of shouldUseIndex (engines/index.ts lines 196 to 217). -/
def shouldUseIndex (env : Env) (meta : Meta) : Bool :=
  let screenshotFormat := meta.options.formats.screenshot
  let hasCustomScreenshotSettings :=
    match screenshotFormat with
    | some s => s.viewport.isSome || s.quality.isSome
    | none => false
  env.useIndexService && !env.indexWriteOnly &&
    !meta.options.formats.changeTracking &&
    !meta.options.formats.branding &&
    meta.options.parsers.pdfMaxPages == none &&
    !hasCustomScreenshotSettings &&
    meta.options.maxAge != some 0 &&
    (match meta.options.headers with
      | none => true
      | some h => h.isEmpty) &&
    (match meta.options.actions with
      | none => true
      | some a => a.isEmpty) &&
    meta.options.proxy != some ProxyOption.stealth

/-- Embedding of selectLiveEngine (engines/index.ts lines 160 to 171):
first configured backend in the fixed priority order, defaulting to
fetch. -/
def selectLiveEngine (env : Env) : Engine :=
  if env.fireEngineConfigured then Engine.fireEngineChromeCDP
  else if env.playwrightConfigured then Engine.playwright
  else Engine.fetch

/-! Specialty rerouting, from the orchestrator module. -/

/-- Modelled from the spec: scrapeDocument (engines/document) is outside
the embedded sources; per the parser contract it consumes the prefetch
slot and returns an engine-shaped result, here env.documentScrape. -/
def scrapeDocument (env : Env) (_meta : Meta) : Except Err EngineScrapeResult × List Event :=
  (env.documentScrape, [Event.documentParserStart])

/-- The prefetch descriptor built from a dedicated re-download: the temp
file path and response fields of the download, the proxy tier of the
engine result, and the response content type with the detected one as
fallback. -/
def downloadPrefetch (d : Download) (engineResult : EngineScrapeResult)
    (contentType : Option String) : Prefetch :=
  ⟨d.tempFilePath, some d.url, d.status, engineResult.proxyUsed.getD Proxy.basic,
   optOr d.contentTypeHeader contentType⟩

/-- Embedding of prefetchPdfFile (orchestrator lines 340 to 362): a
dedicated re-download producing a prefetch descriptor. -/
def prefetchPdfFile (env : Env) (engineResult : EngineScrapeResult)
    (contentType : Option String) : Except Err Prefetch × List Event :=
  match env.download with
  | Except.error e => (Except.error e, [Event.downloadFile])
  | Except.ok d =>
    (Except.ok (downloadPrefetch d engineResult contentType), [Event.downloadFile])

/-- Embedding of prefetchDocumentFile (orchestrator lines 364 to 386),
textually identical to prefetchPdfFile in the source. -/
def prefetchDocumentFile (env : Env) (engineResult : EngineScrapeResult)
    (contentType : Option String) : Except Err Prefetch × List Event :=
  match env.download with
  | Except.error e => (Except.error e, [Event.downloadFile])
  | Except.ok d =>
    (Except.ok (downloadPrefetch d engineResult contentType), [Event.downloadFile])

/-- Embedding of applySpecialtyParsing (orchestrator lines 388 to 446):
detect the payload class; a missing prefetch is a hard EngineError for the
full-capability backend, otherwise it triggers a dedicated re-download;
then the specialized parser replaces the payload, keeping the first
defined content type among parser, plan and raw result. The detector
input assembled from an engine result is split out as its own
definition so that theorems can name it. -/
def specialtyInputOfResult (engineResult : EngineScrapeResult) :
    SpecialtyDetectionInput :=
  { headers := none, contentType := engineResult.contentType,
    body := some engineResult.html, binaryFile := engineResult.binaryFile,
    url := some engineResult.url, status := some engineResult.statusCode,
    proxyUsed := engineResult.proxyUsed }

def applySpecialtyParsing (env : Env) (meta : Meta) (engine : Engine)
    (engineResult : EngineScrapeResult) : Except Err EngineScrapeResult × List Event :=
  let (planOpt, detectEvs) := detectSpecialtyPlan env.tmpId
    (specialtyInputOfResult engineResult)
  match planOpt with
  | none => (Except.ok engineResult, detectEvs)
  | some plan =>
    if engine == Engine.fireEngineChromeCDP && plan.prefetch == none then
      (Except.error (Err.engineError "Fire Engine response missing file payload"),
       detectEvs)
    else
      match plan.type with
      | SpecialtyType.pdf =>
        let prefetchStep : Except Err Prefetch × List Event :=
          match plan.prefetch with
          | some p => (Except.ok p, [])
          | none => prefetchPdfFile env engineResult plan.contentType
        match prefetchStep with
        | (Except.error e, evs) => (Except.error e, detectEvs ++ evs)
        | (Except.ok p, evs) =>
          let (pdfRes, pdfEvs) := scrapePDF env { meta with pdfPrefetch := some (some p) }
          match pdfRes with
          | Except.error e => (Except.error e, detectEvs ++ evs ++ pdfEvs)
          | Except.ok r =>
            let newCt := optOr r.contentType (optOr plan.contentType engineResult.contentType)
            (Except.ok { r with contentType := newCt }, detectEvs ++ evs ++ pdfEvs)
      | SpecialtyType.document =>
        let prefetchStep : Except Err Prefetch × List Event :=
          match plan.prefetch with
          | some p => (Except.ok p, [])
          | none => prefetchDocumentFile env engineResult plan.contentType
        match prefetchStep with
        | (Except.error e, evs) => (Except.error e, detectEvs ++ evs)
        | (Except.ok p, evs) =>
          let (docRes, docEvs) := scrapeDocument env { meta with documentPrefetch := some (some p) }
          match docRes with
          | Except.error e => (Except.error e, detectEvs ++ evs ++ docEvs)
          | Except.ok r =>
            let newCt := optOr r.contentType (optOr plan.contentType engineResult.contentType)
            (Except.ok { r with contentType := newCt }, detectEvs ++ evs ++ docEvs)

/-! Engine selection with cache short-circuit, from the orchestrator. -/

/-- The outcome record of selectEngineAndScrape. -/
structure EngineOutcome where
  engine : Engine
  unsupportedFeatures : Finset FeatureFlag
  result : EngineScrapeResult
  indexAttempted : Bool

/-- The engine the live path uses: the forced engine when present, else
the first configured live backend. -/
def liveEngineOf (env : Env) (meta : Meta) : Engine :=
  meta.internalOptions.forceEngine.getD (selectLiveEngine env)

/-- The live-engine part of selectEngineAndScrape (orchestrator lines 493
to 521): raise for a requested but unsupported actions or branding
capability before invoking the live engine, then invoke it once and apply
specialty parsing. -/
def scrapeLivePath (env : Env) (meta : Meta) (indexAttempted : Bool) :
    Except Err EngineOutcome × List Event :=
  if FeatureFlag.actions ∈ meta.featureFlags ∧ FeatureFlag.actions ∈
      getUnsupportedFeatures meta.featureFlags (liveEngineOf env meta) then
    (Except.error Err.actionsNotSupported, [])
  else if FeatureFlag.branding ∈ meta.featureFlags ∧ FeatureFlag.branding ∈
      getUnsupportedFeatures meta.featureFlags (liveEngineOf env meta) then
    (Except.error Err.brandingNotSupported, [])
  else
    match env.runEngine (liveEngineOf env meta) with
    | Except.error e => (Except.error e, [Event.invokeEngine (liveEngineOf env meta)])
    | Except.ok rawResult =>
      match applySpecialtyParsing env meta (liveEngineOf env meta) rawResult with
      | (Except.error e, evs) =>
        (Except.error e, Event.invokeEngine (liveEngineOf env meta) :: evs)
      | (Except.ok parsedResult, evs) =>
        (Except.ok ⟨liveEngineOf env meta,
           getUnsupportedFeatures meta.featureFlags (liveEngineOf env meta),
           parsedResult, indexAttempted⟩,
         Event.invokeEngine (liveEngineOf env meta) :: evs)

/-- The cache gate of selectEngineAndScrape: no forced engine and the
shouldUseIndex conditions hold. -/
def indexEligible (env : Env) (meta : Meta) : Bool :=
  meta.internalOptions.forceEngine == none && shouldUseIndex env meta

/-- Embedding of selectEngineAndScrape (orchestrator lines 448 to 522):
a forced index engine is invoked with no fallback; an index-eligible
request tries the index first, swallowing only the two cache-miss signals
before falling back to the live engine. -/
def selectEngineAndScrape (env : Env) (meta : Meta) :
    Except Err EngineOutcome × List Event :=
  if meta.internalOptions.forceEngine == some Engine.index then
    match env.runEngine Engine.index with
    | Except.error e => (Except.error e, [Event.invokeEngine Engine.index])
    | Except.ok result =>
      (Except.ok ⟨Engine.index, getUnsupportedFeatures meta.featureFlags Engine.index,
        result, true⟩, [Event.invokeEngine Engine.index])
  else if indexEligible env meta then
    match env.runEngine Engine.index with
    | Except.ok result =>
      (Except.ok ⟨Engine.index, getUnsupportedFeatures meta.featureFlags Engine.index,
        result, true⟩, [Event.invokeEngine Engine.index])
    | Except.error e =>
      if e == Err.indexMiss || e == Err.noCachedData then
        match scrapeLivePath env meta (indexEligible env meta) with
        | (r, evs) => (r, Event.invokeEngine Engine.index :: evs)
      else
        (Except.error e, [Event.invokeEngine Engine.index])
  else
    scrapeLivePath env meta (indexEligible env meta)

/-! The postprocessor chain runner, from the loop in scrapeURLSingle
(orchestrator lines 576 to 604). -/

/-- Runs the ordered postprocessor list once over the working result: a
step whose predicate holds has its run invoked; a successful run replaces
the working result, a thrown run (none) keeps it. The second component
lists the names of the steps whose run was invoked, failures included. -/
def runPostprocessors : List Postprocessor → EngineScrapeResult →
    EngineScrapeResult × List String
  | [], result => (result, [])
  | p :: ps, result =>
    if p.shouldRun result.url result.postprocessorsUsed then
      match p.run result with
      | some r2 =>
        let (rf, invoked) := runPostprocessors ps r2
        (rf, p.name :: invoked)
      | none =>
        let (rf, invoked) := runPostprocessors ps result
        (rf, p.name :: invoked)
    else
      runPostprocessors ps result

/-! Document assembly, from scrapeURLSingle. -/

/-- Cache state recorded in the document metadata. -/
inductive CacheState where
  | hit
  | miss
deriving DecidableEq, Repr

/-- Embedding of the cacheMetadata computation (orchestrator lines 606 to
616): when the index was attempted, hit exactly when the winner is the
index engine and its result carries cache provenance, otherwise miss;
when the index was never attempted, no cache state at all. -/
def cacheMetadata (indexAttempted : Bool) (engine : Engine) (cacheInfo : Option Nat) :
    Option CacheState :=
  if indexAttempted then
    if engine == Engine.index && cacheInfo.isSome then some CacheState.hit
    else some CacheState.miss
  else none

/-- The document metadata fields assembled by scrapeURLSingle. -/
structure DocMetadata where
  sourceURL : String
  url : String
  statusCode : Nat
  error : Option String
  numPages : Option Nat
  title : Option String
  contentType : Option String
  proxyUsed : Proxy
  cacheState : Option CacheState
  postprocessorsUsed : Option (List String)
deriving DecidableEq, Repr

/-- The final document. The warning is modelled as the set of unsupported
features it reports rather than the literal joined text. -/
structure Document where
  markdown : Option String
  rawHtml : String
  screenshot : Option String
  metadata : DocMetadata
  warning : Option (Finset FeatureFlag)

/-- Embedding of scrapeURLSingle (orchestrator lines 524 to 671):
zero-data-retention pre-flight checks, abort check, engine selection, the
postprocessor chain, cache metadata and document assembly. The
executeTransformers stage (LLM extraction and merge logic) is an external
collaborator excluded from the core and is not applied. -/
def scrapeURLSingle (env : Env) (meta : Meta) : Except Err Document × List Event :=
  if meta.internalOptions.zeroDataRetention ∧ FeatureFlag.screenshot ∈ meta.featureFlags then
    (Except.error (Err.zdrViolation "screenshot"), [])
  else if meta.internalOptions.zeroDataRetention ∧
      FeatureFlag.screenshotFullScreen ∈ meta.featureFlags then
    (Except.error (Err.zdrViolation "screenshot at fullScreen"), [])
  else if meta.internalOptions.zeroDataRetention ∧
      (meta.options.actions.getD []).contains ActionKind.screenshot then
    (Except.error (Err.zdrViolation "screenshot action"), [])
  else if meta.internalOptions.zeroDataRetention ∧
      (meta.options.actions.getD []).contains ActionKind.pdf then
    (Except.error (Err.zdrViolation "pdf action"), [])
  else if meta.aborted then
    (Except.error Err.aborted, [])
  else
    match selectEngineAndScrape env meta with
    | (Except.error e, evs) => (Except.error e, evs)
    | (Except.ok outcome, evs) =>
      let (engineResult, _invoked) := runPostprocessors env.postprocessors outcome.result
      let cm := cacheMetadata outcome.indexAttempted outcome.engine engineResult.cacheInfo
      let doc : Document :=
        { markdown := engineResult.markdown,
          rawHtml := engineResult.html,
          screenshot := engineResult.screenshot,
          metadata :=
            { sourceURL := meta.url,
              url := engineResult.url,
              statusCode := engineResult.statusCode,
              error := engineResult.error,
              numPages := engineResult.pdfMetadata.map (fun m => m.numPages),
              title := match engineResult.pdfMetadata with
                | some m => m.title
                | none => none,
              contentType := engineResult.contentType,
              proxyUsed := engineResult.proxyUsed.getD Proxy.basic,
              cacheState := cm,
              postprocessorsUsed := engineResult.postprocessorsUsed },
          warning :=
            if outcome.unsupportedFeatures.Nonempty then
              some outcome.unsupportedFeatures
            else none }
      (Except.ok doc, evs)

/-! Helper lemmas about the event logs of the pipeline stages. -/

/-- Marker for engine-invocation events. -/
def Event.isInvoke : Event → Bool
  | Event.invokeEngine _ => true
  | _ => false

/-- The live engine priority order never yields the index engine. -/
theorem selectLiveEngine_ne_index (env : Env) : selectLiveEngine env ≠ Engine.index := by
  unfold selectLiveEngine
  split
  · simp
  · split <;> simp

/-- The try body of scrapePDF emits no events of its own. -/
theorem scrapePDFTryBody_events (env : Env) (meta : Meta) (responseUrl : String)
    (statusCode : Nat) (contentType : Option String) (proxyUsed : Proxy) :
    (scrapePDFTryBody env meta responseUrl statusCode contentType proxyUsed).2 = [] := by
  unfold scrapePDFTryBody
  split
  · rfl
  · split
    · rfl
    · cases env.pdfParse <;> rfl

/-- scrapePDF never invokes an engine: its events are the parser marker,
the optional dedicated download, and the temp file unlink. -/
theorem scrapePDF_no_invoke (env : Env) (meta : Meta) :
    ∀ x ∈ (scrapePDF env meta).2, x.isInvoke = false := by
  intro x hx
  unfold scrapePDF at hx
  split at hx
  case h_1 p heq =>
    split at hx
    · simp at hx
      simp [hx, Event.isInvoke]
    · rcases ht : scrapePDFTryBody env meta
        (p.url.getD (meta.rewrittenUrl.getD meta.url)) p.status
        p.contentType p.proxyUsed with ⟨r, evs⟩
      have hevs : evs = [] := by
        have := scrapePDFTryBody_events env meta
          (p.url.getD (meta.rewrittenUrl.getD meta.url)) p.status
          p.contentType p.proxyUsed
        rw [ht] at this
        exact this
      rw [ht] at hx
      subst hevs
      simp at hx
      rcases hx with h | h <;> simp [h, Event.isInvoke]
  case h_2 =>
    split at hx
    · simp at hx
      rcases hx with h | h <;> simp [h, Event.isInvoke]
    case h_2 d heq =>
      split at hx
      · simp at hx
        rcases hx with h | h <;> simp [h, Event.isInvoke]
      · rcases ht : scrapePDFTryBody env meta d.url d.status d.contentTypeHeader Proxy.basic
          with ⟨r, evs⟩
        have hevs : evs = [] := by
          have := scrapePDFTryBody_events env meta d.url d.status d.contentTypeHeader Proxy.basic
          rw [ht] at this
          exact this
        rw [ht] at hx
        subst hevs
        simp at hx
        rcases hx with h | h | h <;> simp [h, Event.isInvoke]

/-- Every event emitted by the detector is a temp file write. -/
theorem detectSpecialtyPlan_events (tmpId : String) (input : SpecialtyDetectionInput) :
    ∀ x ∈ (detectSpecialtyPlan tmpId input).2, ∃ p, x = Event.writeTempFile p := by
  intro x hx
  unfold detectSpecialtyPlan at hx
  simp only [base64ToPrefetch] at hx
  split at hx
  · simp at hx
  · split at hx
    · split at hx <;> simp at hx <;> exact ⟨_, hx⟩
    · split at hx
      · split at hx <;> simp at hx <;> exact ⟨_, hx⟩
      · split at hx
        · simp at hx
        · split at hx <;> simp at hx

/-- The dedicated PDF re-download emits exactly one download event. -/
theorem prefetchPdfFile_events (env : Env) (engineResult : EngineScrapeResult)
    (contentType : Option String) :
    (prefetchPdfFile env engineResult contentType).2 = [Event.downloadFile] := by
  unfold prefetchPdfFile
  split <;> rfl

/-- The dedicated document re-download emits exactly one download event. -/
theorem prefetchDocumentFile_events (env : Env) (engineResult : EngineScrapeResult)
    (contentType : Option String) :
    (prefetchDocumentFile env engineResult contentType).2 = [Event.downloadFile] := by
  unfold prefetchDocumentFile
  split <;> rfl

/-- Events of the prefetch-or-reuse step of the specialty arms: the empty
list when the plan already carried a prefetch, one download event when a
dedicated re-download ran. -/
theorem prefetchStep_events (fallback : Except Err Prefetch × List Event)
    (hfb : fallback.2 = [Event.downloadFile]) (pf : Option Prefetch)
    (res : Except Err Prefetch) (evs : List Event)
    (heq : (match pf with
      | some p => (Except.ok p, ([] : List Event))
      | none => fallback) = (res, evs)) :
    evs = [] ∨ evs = [Event.downloadFile] := by
  cases pf with
  | some p =>
    have h2 := congrArg Prod.snd heq
    exact Or.inl h2.symm
  | none =>
    have h2 := congrArg Prod.snd heq
    rw [hfb] at h2
    exact Or.inr h2.symm

/-- applySpecialtyParsing never invokes an engine: it only detects,
re-downloads and runs specialized parsers. -/
theorem applySpecialtyParsing_no_invoke (env : Env) (meta : Meta) (engine : Engine)
    (engineResult : EngineScrapeResult) :
    ∀ x ∈ (applySpecialtyParsing env meta engine engineResult).2, x.isInvoke = false := by
  intro x hx
  have hdet := detectSpecialtyPlan_events env.tmpId (specialtyInputOfResult engineResult)
  have hwrite : ∀ y, (∃ p, y = Event.writeTempFile p) → y.isInvoke = false := by
    rintro y ⟨p, rfl⟩
    rfl
  unfold applySpecialtyParsing at hx
  rcases hd : detectSpecialtyPlan env.tmpId (specialtyInputOfResult engineResult)
    with ⟨planOpt, devs⟩
  rw [hd] at hx hdet
  cases planOpt with
  | none =>
    simp at hx
    exact hwrite x (hdet x hx)
  | some plan =>
    simp only at hx
    split at hx
    · simp at hx
      exact hwrite x (hdet x hx)
    · split at hx
      · -- pdf arm
        split at hx
        case h_1 e evs heq =>
          have hevs := prefetchStep_events _
            (prefetchPdfFile_events env engineResult plan.contentType)
            plan.prefetch _ _ heq
          rcases hevs with h | h <;> subst h <;> simp at hx
          · exact hwrite x (hdet x hx)
          · rcases hx with h | h
            · exact hwrite x (hdet x h)
            · simp [h, Event.isInvoke]
        case h_2 p evs heq =>
          have hevs := prefetchStep_events _
            (prefetchPdfFile_events env engineResult plan.contentType)
            plan.prefetch _ _ heq
          have hpdf := scrapePDF_no_invoke env
            { meta with pdfPrefetch := some (some p) }
          split at hx <;> rcases hevs with h | h <;> subst h <;> simp at hx
          · rcases hx with h | h
            · exact hwrite x (hdet x h)
            · exact hpdf x h
          · rcases hx with h | h | h
            · exact hwrite x (hdet x h)
            · simp [h, Event.isInvoke]
            · exact hpdf x h
          · rcases hx with h | h
            · exact hwrite x (hdet x h)
            · exact hpdf x h
          · rcases hx with h | h | h
            · exact hwrite x (hdet x h)
            · simp [h, Event.isInvoke]
            · exact hpdf x h
      · -- document arm
        split at hx
        case h_1 e evs heq =>
          have hevs := prefetchStep_events _
            (prefetchDocumentFile_events env engineResult plan.contentType)
            plan.prefetch _ _ heq
          rcases hevs with h | h <;> subst h <;> simp at hx
          · exact hwrite x (hdet x hx)
          · rcases hx with h | h
            · exact hwrite x (hdet x h)
            · simp [h, Event.isInvoke]
        case h_2 p evs heq =>
          have hevs := prefetchStep_events _
            (prefetchDocumentFile_events env engineResult plan.contentType)
            plan.prefetch _ _ heq
          split at hx <;> rcases hevs with h | h <;> subst h <;>
            simp [scrapeDocument] at hx
          · rcases hx with h | h
            · exact hwrite x (hdet x h)
            · simp [h, Event.isInvoke]
          · rcases hx with h | h | h
            · exact hwrite x (hdet x h)
            · simp [h, Event.isInvoke]
            · simp [h, Event.isInvoke]
          · rcases hx with h | h
            · exact hwrite x (hdet x h)
            · simp [h, Event.isInvoke]
          · rcases hx with h | h | h
            · exact hwrite x (hdet x h)
            · simp [h, Event.isInvoke]
            · simp [h, Event.isInvoke]

/-- C8: with zero-data-retention active, a request asking for a
screenshot format (normal or full page) or containing a screenshot or pdf
action is rejected as a zero-data-retention violation up front: the
pipeline returns a zdrViolation error with an empty event log, so the
rejection happens before engine selection and before any engine, download
or parser is invoked. -/
theorem zdrViolation_preflight (env : Env) (meta : Meta)
    (hzdr : meta.internalOptions.zeroDataRetention = true)
    (hreq : FeatureFlag.screenshot ∈ meta.featureFlags ∨
      FeatureFlag.screenshotFullScreen ∈ meta.featureFlags ∨
      ActionKind.screenshot ∈ meta.options.actions.getD [] ∨
      ActionKind.pdf ∈ meta.options.actions.getD []) :
    ∃ s, scrapeURLSingle env meta = (Except.error (Err.zdrViolation s), []) := by
  by_cases h1 : FeatureFlag.screenshot ∈ meta.featureFlags
  · exact ⟨"screenshot", by simp [scrapeURLSingle, hzdr, h1]⟩
  · by_cases h2 : FeatureFlag.screenshotFullScreen ∈ meta.featureFlags
    · exact ⟨"screenshot at fullScreen", by simp [scrapeURLSingle, hzdr, h1, h2]⟩
    · by_cases h3 : ActionKind.screenshot ∈ meta.options.actions.getD []
      · exact ⟨"screenshot action", by simp [scrapeURLSingle, hzdr, h1, h2, h3]⟩
      · have h4 : ActionKind.pdf ∈ meta.options.actions.getD [] := by
          tauto
        exact ⟨"pdf action", by simp [scrapeURLSingle, hzdr, h1, h2, h3, h4]⟩

/-- A request asking for a plain screenshot under zero data retention. -/
def zdrMeta : Meta :=
  mkMeta "https://example.com/"
    { defaultOptions with formats := ⟨some ⟨false, none, none⟩, false, false⟩ }
    { defaultInternal with zeroDataRetention := true }

/-- Witness for the zero-data-retention pre-flight rejection. -/
theorem zdrViolation_preflight_witness :
    ∃ s, scrapeURLSingle defaultEnv zdrMeta = (Except.error (Err.zdrViolation s), []) :=
  zdrViolation_preflight defaultEnv zdrMeta rfl (Or.inl (by decide))

/-! The postprocessor chain: failure tolerance. -/

/-- Running a concatenated chain equals running the two halves in
sequence, with the invocation logs concatenated. -/
theorem runPostprocessors_append (l1 l2 : List Postprocessor) (r : EngineScrapeResult) :
    runPostprocessors (l1 ++ l2) r =
      ((runPostprocessors l2 (runPostprocessors l1 r).1).1,
       (runPostprocessors l1 r).2 ++ (runPostprocessors l2 (runPostprocessors l1 r).1).2) := by
  induction l1 generalizing r with
  | nil => simp [runPostprocessors]
  | cons p ps ih =>
    simp only [List.cons_append, runPostprocessors]
    split
    · cases hp : p.run r with
      | some r2 => simp [hp, ih]
      | none => simp [hp, ih]
    · exact ih r

/-- A name that is absent from the applied-names list stays absent over a
chain none of whose successful runs introduces it. -/
theorem runPostprocessors_notin (ps : List Postprocessor) (r : EngineScrapeResult)
    (nm : String) (hr : nm ∉ r.postprocessorsUsed.getD [])
    (hps : ∀ p ∈ ps, ∀ x y, p.run x = some y →
      nm ∉ x.postprocessorsUsed.getD [] → nm ∉ y.postprocessorsUsed.getD []) :
    nm ∉ ((runPostprocessors ps r).1.postprocessorsUsed.getD []) := by
  induction ps generalizing r with
  | nil => simpa [runPostprocessors]
  | cons p ps ih =>
    simp only [runPostprocessors]
    split
    · cases hp : p.run r with
      | some r2 =>
        simp only [hp]
        exact ih r2 (hps p (by simp) r r2 hp hr) (fun q hq => hps q (by simp [hq]))
      | none =>
        simp only [hp]
        exact ih r hr (fun q hq => hps q (by simp [hq]))
    · exact ih r hr (fun q hq => hps q (by simp [hq]))

/-- C5: when a postprocessor whose predicate holds throws, the working
result entering the rest of the chain is exactly the working result from
before that step, the failing step is still recorded as invoked, every
later step of the chain runs as if the failure had not happened, and the
failing step never appears in the final postprocessorsUsed list (given
that it was not already there and no later successful run introduces
it). -/
theorem postprocessorFailure_nonfatal (pre post : List Postprocessor)
    (bad : Postprocessor) (r0 : EngineScrapeResult)
    (hShould : bad.shouldRun (runPostprocessors pre r0).1.url
      (runPostprocessors pre r0).1.postprocessorsUsed = true)
    (hFail : bad.run (runPostprocessors pre r0).1 = none)
    (hNotIn : bad.name ∉ ((runPostprocessors pre r0).1.postprocessorsUsed.getD []))
    (hFresh : ∀ p ∈ post, ∀ x y, p.run x = some y →
      bad.name ∉ x.postprocessorsUsed.getD [] →
      bad.name ∉ y.postprocessorsUsed.getD []) :
    runPostprocessors (pre ++ bad :: post) r0 =
      ((runPostprocessors post (runPostprocessors pre r0).1).1,
       (runPostprocessors pre r0).2 ++
         bad.name :: (runPostprocessors post (runPostprocessors pre r0).1).2) ∧
    bad.name ∉ ((runPostprocessors (pre ++ bad :: post) r0).1.postprocessorsUsed.getD []) := by
  have happ := runPostprocessors_append pre (bad :: post) r0
  have hmid : runPostprocessors (bad :: post) (runPostprocessors pre r0).1 =
      ((runPostprocessors post (runPostprocessors pre r0).1).1,
       bad.name :: (runPostprocessors post (runPostprocessors pre r0).1).2) := by
    simp [runPostprocessors, hShould, hFail]
  have hmain : runPostprocessors (pre ++ bad :: post) r0 =
      ((runPostprocessors post (runPostprocessors pre r0).1).1,
       (runPostprocessors pre r0).2 ++
         bad.name :: (runPostprocessors post (runPostprocessors pre r0).1).2) := by
    rw [happ, hmid]
  refine ⟨hmain, ?_⟩
  rw [hmain]
  exact runPostprocessors_notin post (runPostprocessors pre r0).1 bad.name hNotIn hFresh

/-- A postprocessor that always runs and appends its own name. -/
def goodPost : Postprocessor :=
  { name := "good", shouldRun := fun _ _ => true,
    run := fun r => some { r with
      postprocessorsUsed := some (r.postprocessorsUsed.getD [] ++ ["good"]) } }

/-- A postprocessor that always runs and always throws. -/
def badPost : Postprocessor :=
  { name := "bad", shouldRun := fun _ _ => true, run := fun _ => none }

/-- Witness for the postprocessor failure tolerance: a chain consisting of
a throwing step followed by a succeeding step. -/
theorem postprocessorFailure_nonfatal_witness :
    runPostprocessors ([] ++ badPost :: [goodPost]) sampleResult =
      ((runPostprocessors [goodPost] (runPostprocessors [] sampleResult).1).1,
       (runPostprocessors [] sampleResult).2 ++
         badPost.name :: (runPostprocessors [goodPost] (runPostprocessors [] sampleResult).1).2) ∧
    badPost.name ∉ ((runPostprocessors ([] ++ badPost :: [goodPost]) sampleResult).1.postprocessorsUsed.getD []) :=
  postprocessorFailure_nonfatal [] [goodPost] badPost sampleResult rfl rfl
    (by simp [runPostprocessors, sampleResult])
    (by
      intro p hp x y hxy hnot
      simp at hp
      subst hp
      simp only [goodPost] at hxy
      have hy : y = { x with
          postprocessorsUsed := some (x.postprocessorsUsed.getD [] ++ ["good"]) } := by
        cases hxy
        rfl
      subst hy
      simp only [badPost, Option.getD]
      intro hmem
      rcases List.mem_append.mp hmem with h | h
      · exact hnot h
      · simp at h)

/-! Specialty prefetch policy. -/

/-- The scrapePDF event log always begins with the parser marker. -/
theorem scrapePDF_events_head (env : Env) (meta : Meta) :
    ∃ rest, (scrapePDF env meta).2 = Event.pdfParserStart :: rest := by
  unfold scrapePDF
  split
  · split
    · exact ⟨[], rfl⟩
    · exact ⟨_, rfl⟩
  · split
    · exact ⟨_, rfl⟩
    · split
      · exact ⟨_, rfl⟩
      · exact ⟨_, rfl⟩

/-- C6: when the detector classifies a result as pdf or document without a
prefetch descriptor, the full-capability backend answering is a hard
EngineError with no re-download and no parser invocation (the error event
log is exactly the detection log, which holds only temp file writes);
any other engine instead performs the dedicated re-download, and the
specialized parser marker appears only after the download event. -/
theorem specialtyPrefetch_policy (env : Env) (meta : Meta)
    (engineResult : EngineScrapeResult) (plan : SpecialtyPlan) (devs : List Event)
    (hdet : detectSpecialtyPlan env.tmpId (specialtyInputOfResult engineResult) =
      (some plan, devs))
    (hnopf : plan.prefetch = none) :
    (applySpecialtyParsing env meta Engine.fireEngineChromeCDP engineResult =
      (Except.error (Err.engineError "Fire Engine response missing file payload"), devs) ∧
      Event.downloadFile ∉ devs ∧ Event.pdfParserStart ∉ devs ∧
      Event.documentParserStart ∉ devs) ∧
    (∀ engine d, engine ≠ Engine.fireEngineChromeCDP → env.download = Except.ok d →
      plan.type = SpecialtyType.pdf →
      ∃ res rest, applySpecialtyParsing env meta engine engineResult =
        (res, devs ++ [Event.downloadFile] ++ Event.pdfParserStart :: rest)) ∧
    (∀ engine d, engine ≠ Engine.fireEngineChromeCDP → env.download = Except.ok d →
      plan.type = SpecialtyType.document →
      ∃ res, applySpecialtyParsing env meta engine engineResult =
        (res, devs ++ [Event.downloadFile] ++ [Event.documentParserStart])) := by
  have hwrites := detectSpecialtyPlan_events env.tmpId (specialtyInputOfResult engineResult)
  rw [hdet] at hwrites
  simp only at hwrites
  refine ⟨⟨?_, ?_, ?_, ?_⟩, ?_, ?_⟩
  · unfold applySpecialtyParsing
    rw [hdet]
    simp [hnopf]
  · intro hmem
    obtain ⟨p, hp⟩ := hwrites _ hmem
    exact absurd hp (by simp)
  · intro hmem
    obtain ⟨p, hp⟩ := hwrites _ hmem
    exact absurd hp (by simp)
  · intro hmem
    obtain ⟨p, hp⟩ := hwrites _ hmem
    exact absurd hp (by simp)
  · intro engine d hne hdl htype
    unfold applySpecialtyParsing
    rw [hdet]
    simp only
    rw [hnopf, htype]
    have hcond : (engine == Engine.fireEngineChromeCDP &&
        ((none : Option Prefetch) == none)) = false := by
      simp [hne]
    rw [hcond]
    have hpf : prefetchPdfFile env engineResult plan.contentType =
        (Except.ok (downloadPrefetch d engineResult plan.contentType),
         [Event.downloadFile]) := by
      unfold prefetchPdfFile
      rw [hdl]
    simp only [Bool.false_eq_true, if_false, hpf]
    obtain ⟨rest, hrest⟩ := scrapePDF_events_head env
      { meta with pdfPrefetch := some (some (downloadPrefetch d engineResult plan.contentType)) }
    rcases hsp : scrapePDF env
      { meta with pdfPrefetch := some (some (downloadPrefetch d engineResult plan.contentType)) }
      with ⟨res2, evs2⟩
    rw [hsp] at hrest
    simp only at hrest
    cases res2 with
    | error e =>
      exact ⟨Except.error e, rest, by simp [hrest]⟩
    | ok r =>
      refine ⟨Except.ok { r with contentType := optOr r.contentType (optOr plan.contentType engineResult.contentType) }, rest, ?_⟩
      simp [hrest]
  · intro engine d hne hdl htype
    unfold applySpecialtyParsing
    rw [hdet]
    simp only
    rw [hnopf, htype]
    have hcond : (engine == Engine.fireEngineChromeCDP &&
        ((none : Option Prefetch) == none)) = false := by
      simp [hne]
    rw [hcond]
    have hpf : prefetchDocumentFile env engineResult plan.contentType =
        (Except.ok (downloadPrefetch d engineResult plan.contentType),
         [Event.downloadFile]) := by
      unfold prefetchDocumentFile
      rw [hdl]
    simp only [Bool.false_eq_true, if_false, hpf]
    cases hds : env.documentScrape with
    | error e =>
      exact ⟨Except.error e, by simp [scrapeDocument, hds]⟩
    | ok r =>
      refine ⟨Except.ok { r with contentType := optOr r.contentType (optOr plan.contentType engineResult.contentType) }, ?_⟩
      simp [scrapeDocument, hds]

/-- A live engine result carrying a pdf content type and no inline binary
payload: the detector classifies it as pdf with no prefetch. -/
def pdfHintResult : EngineScrapeResult :=
  { sampleResult with contentType := some "application/pdf" }

/-- Witness for the specialty prefetch policy, at a result whose content
type is application/pdf with no inline payload: part one at the
full-capability backend, part two at the plain fetch engine. -/
theorem specialtyPrefetch_policy_witness :
    (applySpecialtyParsing defaultEnv
        (mkMeta "https://example.com/" defaultOptions defaultInternal)
        Engine.fireEngineChromeCDP pdfHintResult =
      (Except.error (Err.engineError "Fire Engine response missing file payload"), []) ∧
      Event.downloadFile ∉ ([] : List Event) ∧ Event.pdfParserStart ∉ ([] : List Event) ∧
      Event.documentParserStart ∉ ([] : List Event)) ∧
    ∃ res rest, applySpecialtyParsing defaultEnv
        (mkMeta "https://example.com/" defaultOptions defaultInternal)
        Engine.fetch pdfHintResult =
      (res, [] ++ [Event.downloadFile] ++ Event.pdfParserStart :: rest) := by
  have h := specialtyPrefetch_policy defaultEnv
    (mkMeta "https://example.com/" defaultOptions defaultInternal) pdfHintResult
    ⟨SpecialtyType.pdf, some "application/pdf", none⟩ [] (by rfl) rfl
  exact ⟨h.1, h.2.1 Engine.fetch
    ⟨"/tmp/dl.pdf", "https://example.com/file.pdf", 200, some "application/pdf"⟩
    (by decide) rfl rfl⟩

/-! Actions capability pre-flight. -/

/-- A request with a non-actions action forced to the index engine. -/
def forcedIndexActionsMeta : Meta :=
  mkMeta "https://example.com/"
    { defaultOptions with actions := some [ActionKind.other] }
    { defaultInternal with forceEngine := some Engine.index }

/-- A request with an empty actions list, which still sets the actions
feature flag while staying index-eligible. -/
def emptyActionsMeta : Meta :=
  mkMeta "https://example.com/" { defaultOptions with actions := some [] }
    defaultInternal

/-- C7 counterexample: two concrete requests carry the actions feature
flag while every engine that can serve them marks actions unsupported,
yet the pipeline raises no ActionsNotSupportedError. First, a request
forced to the index engine (capability table: actions false) is served by
the index without any check. Second, a request with an empty actions list
sets the actions flag, stays index-eligible, and is served from the index
even though the configured live engine (fetch) marks actions false. In
both runs the engine selection returns success after an engine network
call, falsifying the claim that the error is raised before any engine
call. -/
theorem actionsClaim_counterexample :
    (FeatureFlag.actions ∈ forcedIndexActionsMeta.featureFlags ∧
     engineSupports Engine.index FeatureFlag.actions = false ∧
     selectEngineAndScrape defaultEnv forcedIndexActionsMeta =
       (Except.ok ⟨Engine.index,
          getUnsupportedFeatures forcedIndexActionsMeta.featureFlags Engine.index,
          sampleResult, true⟩,
        [Event.invokeEngine Engine.index])) ∧
    (FeatureFlag.actions ∈ emptyActionsMeta.featureFlags ∧
     engineSupports (selectLiveEngine defaultEnv) FeatureFlag.actions = false ∧
     selectEngineAndScrape defaultEnv emptyActionsMeta =
       (Except.ok ⟨Engine.index,
          getUnsupportedFeatures emptyActionsMeta.featureFlags Engine.index,
          sampleResult, true⟩,
        [Event.invokeEngine Engine.index])) := by
  exact ⟨⟨by decide, rfl, rfl⟩, ⟨by decide, rfl, rfl⟩⟩

/-- C7 amended: for a request with a non-empty actions list that is not
forced to the index engine, if the engine the live path would use marks
actions unsupported, engine selection raises ActionsNotSupportedError
with an empty event log: before any engine invocation or network call. -/
theorem actionsNotSupported_preflight (env : Env) (meta : Meta)
    (hforce : meta.internalOptions.forceEngine ≠ some Engine.index)
    (hacts : ∃ l, meta.options.actions = some l ∧ l ≠ [])
    (hflags : meta.featureFlags = buildFeatureFlags meta.options meta.internalOptions)
    (hunsup : engineSupports
      (meta.internalOptions.forceEngine.getD (selectLiveEngine env))
      FeatureFlag.actions = false) :
    selectEngineAndScrape env meta = (Except.error Err.actionsNotSupported, []) := by
  obtain ⟨l, hl, hlne⟩ := hacts
  have hidx : shouldUseIndex env meta = false := by
    unfold shouldUseIndex
    simp [hl, hlne]
  have hmem : FeatureFlag.actions ∈ meta.featureFlags := by
    rw [hflags]
    unfold buildFeatureFlags
    simp [hl]
  have hne : (meta.internalOptions.forceEngine == some Engine.index) = false := by
    simp [hforce]
  have hcheck : FeatureFlag.actions ∈
      getUnsupportedFeatures meta.featureFlags
        (meta.internalOptions.forceEngine.getD (selectLiveEngine env)) := by
    rw [mem_getUnsupportedFeatures]
    exact ⟨hmem, by simp [hunsup]⟩
  have hel : indexEligible env meta = false := by
    simp [indexEligible, hidx]
  unfold selectEngineAndScrape
  rw [hne, hel]
  simp only [Bool.false_eq_true, if_false]
  unfold scrapeLivePath liveEngineOf
  rw [if_pos ⟨hmem, hcheck⟩]

/-- A request with one action against the default environment, whose live
engine is fetch. -/
def actionsLiveMeta : Meta :=
  mkMeta "https://example.com/"
    { defaultOptions with actions := some [ActionKind.other] } defaultInternal

/-- Witness for the amended actions pre-flight. -/
theorem actionsNotSupported_preflight_witness :
    selectEngineAndScrape defaultEnv actionsLiveMeta =
      (Except.error Err.actionsNotSupported, []) :=
  actionsNotSupported_preflight defaultEnv actionsLiveMeta (by decide)
    ⟨[ActionKind.other], rfl, by decide⟩ rfl rfl

/-! Cache state semantics. -/

/-- Anatomy of a successful live path: the outcome records the given
indexAttempted bit and the live engine, and every event is either the one
live engine invocation or a non-invocation event. -/
theorem scrapeLivePath_ok (env : Env) (meta : Meta) (b : Bool)
    (o : EngineOutcome) (evs : List Event)
    (h : scrapeLivePath env meta b = (Except.ok o, evs)) :
    o.indexAttempted = b ∧ o.engine = liveEngineOf env meta ∧
    ∀ x ∈ evs, x = Event.invokeEngine (liveEngineOf env meta) ∨ x.isInvoke = false := by
  unfold scrapeLivePath at h
  split at h
  · simp at h
  · split at h
    · simp at h
    · split at h
      · simp at h
      case h_2 rawResult heq =>
        split at h
        · simp at h
        case h_2 parsedResult pevs heq2 =>
          simp at h
          obtain ⟨ho, hevs⟩ := h
          subst hevs
          refine ⟨by rw [← ho], by rw [← ho], ?_⟩
          intro x hx
          rcases List.mem_cons.mp hx with hx1 | hx1
          · exact Or.inl hx1
          · refine Or.inr ?_
            have hni := applySpecialtyParsing_no_invoke env meta
              (liveEngineOf env meta) rawResult x
            rw [heq2] at hni
            exact hni hx1

/-- With no forced index engine, the live path engine is never the index
engine. -/
theorem liveEngineOf_ne_index (env : Env) (meta : Meta)
    (h : meta.internalOptions.forceEngine ≠ some Engine.index) :
    liveEngineOf env meta ≠ Engine.index := by
  unfold liveEngineOf
  cases hf : meta.internalOptions.forceEngine with
  | none => simpa using selectLiveEngine_ne_index env
  | some e =>
    simp only [Option.getD]
    intro he
    exact h (by rw [hf, he])

/-- C10: the cache state recorded in the final document. First, the
cacheMetadata computation yields hit exactly when the index was attempted,
the winning engine is the index engine, and the winning result carries
cache provenance; yields no cache state at all exactly when the index was
never attempted; and yields miss whenever the index was attempted but the
winner is not the index engine or provenance is absent. Second, the
indexAttempted bit of a successful engine selection is equivalent to the
event log containing an index engine invocation. Third, a successful
pipeline records exactly cacheMetadata of the outcome (applied to the
post-chain result) in the document metadata. -/
theorem cacheState_semantics :
    (∀ (a : Bool) (e : Engine) (ci : Option Nat),
      (cacheMetadata a e ci = some CacheState.hit ↔
        a = true ∧ e = Engine.index ∧ ci.isSome = true) ∧
      (cacheMetadata a e ci = none ↔ a = false) ∧
      (a = true → e ≠ Engine.index ∨ ci = none →
        cacheMetadata a e ci = some CacheState.miss)) ∧
    (∀ env meta o evs, selectEngineAndScrape env meta = (Except.ok o, evs) →
      (o.indexAttempted = true ↔ Event.invokeEngine Engine.index ∈ evs)) ∧
    (∀ env meta doc evs, scrapeURLSingle env meta = (Except.ok doc, evs) →
      ∃ o, selectEngineAndScrape env meta = (Except.ok o, evs) ∧
        doc.metadata.cacheState = cacheMetadata o.indexAttempted o.engine
          ((runPostprocessors env.postprocessors o.result).1).cacheInfo) := by
  refine ⟨?_, ?_, ?_⟩
  · intro a e ci
    unfold cacheMetadata
    cases a <;> cases ci <;> cases e <;> simp
  · intro env meta o evs hsel
    unfold selectEngineAndScrape at hsel
    split at hsel
    case isTrue =>
      split at hsel
      · simp at hsel
      · simp at hsel
        obtain ⟨ho, hevs⟩ := hsel
        subst hevs
        rw [← ho]
        simp
    case isFalse hforce =>
      split at hsel
      case isTrue hel =>
        split at hsel
        · simp at hsel
          obtain ⟨ho, hevs⟩ := hsel
          subst hevs
          rw [← ho]
          simp
        · split at hsel
          · split at hsel
            rename_i r2 evs2 heq
            simp at hsel
            obtain ⟨hr2, hevs⟩ := hsel
            subst hevs
            have hprops := scrapeLivePath_ok env meta (indexEligible env meta) o evs2
              (by rw [heq, hr2])
            constructor
            · intro _
              simp
            · intro _
              rw [hprops.1, hel]
          · simp at hsel
      case isFalse hel =>
        have hprops := scrapeLivePath_ok env meta (indexEligible env meta) o evs hsel
        have hb : indexEligible env meta = false := by
          cases hib : indexEligible env meta
          · rfl
          · exact absurd hib hel
        have hne : liveEngineOf env meta ≠ Engine.index := by
          apply liveEngineOf_ne_index
          intro hf
          exact hforce (by simp [hf])
        constructor
        · intro hcontra
          rw [hprops.1, hb] at hcontra
          cases hcontra
        · intro hmem
          rcases hprops.2.2 (Event.invokeEngine Engine.index) hmem with hx | hx
          · have hEq : Engine.index = liveEngineOf env meta := by
              injection hx
            exact absurd hEq.symm hne
          · simp [Event.isInvoke] at hx
  · intro env meta doc evs h
    unfold scrapeURLSingle at h
    split at h
    · simp at h
    · split at h
      · simp at h
      · split at h
        · simp at h
        · split at h
          · simp at h
          · split at h
            · simp at h
            · rcases hsel : selectEngineAndScrape env meta with ⟨res, evs2⟩
              rw [hsel] at h
              cases res with
              | error e => simp at h
              | ok o =>
                simp at h
                obtain ⟨hdoc, hevs⟩ := h
                subst hevs
                exact ⟨o, rfl, by rw [← hdoc]⟩

/-! Cache hit short circuit. -/

/-- Cache provenance survives a postprocessor chain none of whose
successful runs changes it. -/
theorem runPostprocessors_cacheInfo (ps : List Postprocessor) (r : EngineScrapeResult)
    (hp : ∀ p ∈ ps, ∀ x y, p.run x = some y → y.cacheInfo = x.cacheInfo) :
    ((runPostprocessors ps r).1).cacheInfo = r.cacheInfo := by
  induction ps generalizing r with
  | nil => simp [runPostprocessors]
  | cons p ps ih =>
    simp only [runPostprocessors]
    split
    · cases hq : p.run r with
      | some r2 =>
        simp only [hq]
        rw [ih r2 (fun q hqq => hp q (by simp [hqq]))]
        exact hp p (by simp) r r2 hq
      | none =>
        simp only [hq]
        exact ih r (fun q hqq => hp q (by simp [hqq]))
    · exact ih r (fun q hqq => hp q (by simp [hqq]))

/-- C1: with no forced engine, the shouldUseIndex gating conditions true
and the index engine returning successfully (spec-modelled: an index
success carries cache provenance), engine selection returns the index
result with the index invocation as its only event, so no live engine is
ever invoked; and, provided the request passes the zero-data-retention and
abort pre-flight and postprocessors preserve provenance, the final
document carries cacheState hit. -/
theorem indexHit_shortCircuit (env : Env) (meta : Meta) (r : EngineScrapeResult)
    (hforce : meta.internalOptions.forceEngine = none)
    (hgate : shouldUseIndex env meta = true)
    (hidx : env.runEngine Engine.index = Except.ok r)
    (hcache : r.cacheInfo.isSome = true)
    (hzdr : meta.internalOptions.zeroDataRetention = false)
    (habort : meta.aborted = false)
    (hpost : ∀ p ∈ env.postprocessors, ∀ x y, p.run x = some y →
      y.cacheInfo = x.cacheInfo) :
    selectEngineAndScrape env meta =
      (Except.ok ⟨Engine.index, getUnsupportedFeatures meta.featureFlags Engine.index,
        r, true⟩, [Event.invokeEngine Engine.index]) ∧
    ∃ doc, scrapeURLSingle env meta = (Except.ok doc, [Event.invokeEngine Engine.index]) ∧
      doc.metadata.cacheState = some CacheState.hit := by
  have hne : (meta.internalOptions.forceEngine == some Engine.index) = false := by
    simp [hforce]
  have hel : indexEligible env meta = true := by
    simp [indexEligible, hforce, hgate]
  have hsel : selectEngineAndScrape env meta =
      (Except.ok ⟨Engine.index, getUnsupportedFeatures meta.featureFlags Engine.index,
        r, true⟩, [Event.invokeEngine Engine.index]) := by
    unfold selectEngineAndScrape
    rw [hne, hel]
    simp [hidx]
  refine ⟨hsel, ?_⟩
  have hci : ((runPostprocessors env.postprocessors r).1).cacheInfo = r.cacheInfo :=
    runPostprocessors_cacheInfo env.postprocessors r hpost
  unfold scrapeURLSingle
  simp only [hzdr, habort, Bool.false_eq_true, false_and, if_false]
  rw [hsel]
  refine ⟨_, rfl, ?_⟩
  simp [cacheMetadata, hci, hcache]

/-- A plain request: no special options, no forced engine. -/
def plainMeta : Meta := mkMeta "https://example.com/" defaultOptions defaultInternal

/-- An index result carrying cache provenance. -/
def cachedResult : EngineScrapeResult := { sampleResult with cacheInfo := some 5 }

/-- An environment whose engines serve the cached result. -/
def hitEnv : Env := { defaultEnv with runEngine := fun _ => Except.ok cachedResult }

/-- Witness for the cache hit short circuit. -/
theorem indexHit_shortCircuit_witness :
    selectEngineAndScrape hitEnv plainMeta =
      (Except.ok ⟨Engine.index, getUnsupportedFeatures plainMeta.featureFlags Engine.index,
        cachedResult, true⟩, [Event.invokeEngine Engine.index]) ∧
    ∃ doc, scrapeURLSingle hitEnv plainMeta =
        (Except.ok doc, [Event.invokeEngine Engine.index]) ∧
      doc.metadata.cacheState = some CacheState.hit :=
  indexHit_shortCircuit hitEnv plainMeta cachedResult rfl rfl rfl rfl rfl rfl
    (by intro p hp; simp [hitEnv, defaultEnv] at hp)

/-! Cache miss fallback. -/

/-- C3: first part: for an index-eligible request whose index attempt
throws one of the two cache-miss signals, the signal is swallowed, the
live engine is invoked exactly once (event count one, as specialty
parsing never invokes engines), and the final document carries cacheState
miss. Second part: when the index engine is explicitly forced, a miss
signal is not swallowed and propagates as the failure of the selection. -/
theorem indexMiss_fallback :
    (∀ env meta e rl pr pevs,
      meta.internalOptions.forceEngine = none →
      shouldUseIndex env meta = true →
      env.runEngine Engine.index = Except.error e →
      e = Err.indexMiss ∨ e = Err.noCachedData →
      meta.internalOptions.zeroDataRetention = false →
      meta.aborted = false →
      ¬(FeatureFlag.actions ∈ meta.featureFlags ∧
        FeatureFlag.actions ∈ getUnsupportedFeatures meta.featureFlags (liveEngineOf env meta)) →
      ¬(FeatureFlag.branding ∈ meta.featureFlags ∧
        FeatureFlag.branding ∈ getUnsupportedFeatures meta.featureFlags (liveEngineOf env meta)) →
      env.runEngine (liveEngineOf env meta) = Except.ok rl →
      applySpecialtyParsing env meta (liveEngineOf env meta) rl = (Except.ok pr, pevs) →
      selectEngineAndScrape env meta =
        (Except.ok ⟨liveEngineOf env meta,
           getUnsupportedFeatures meta.featureFlags (liveEngineOf env meta), pr, true⟩,
         Event.invokeEngine Engine.index :: Event.invokeEngine (liveEngineOf env meta) :: pevs) ∧
      (Event.invokeEngine Engine.index :: Event.invokeEngine (liveEngineOf env meta) :: pevs).count
        (Event.invokeEngine (liveEngineOf env meta)) = 1 ∧
      ∃ doc, scrapeURLSingle env meta =
          (Except.ok doc,
           Event.invokeEngine Engine.index :: Event.invokeEngine (liveEngineOf env meta) :: pevs) ∧
        doc.metadata.cacheState = some CacheState.miss) ∧
    (∀ env meta e,
      meta.internalOptions.forceEngine = some Engine.index →
      env.runEngine Engine.index = Except.error e →
      e = Err.indexMiss ∨ e = Err.noCachedData →
      selectEngineAndScrape env meta = (Except.error e, [Event.invokeEngine Engine.index])) := by
  constructor
  · intro env meta e rl pr pevs hforce hgate hie hmiss hzdr habort hact hbrand hlive hap
    have hne : (meta.internalOptions.forceEngine == some Engine.index) = false := by
      simp [hforce]
    have hel : indexEligible env meta = true := by
      simp [indexEligible, hforce, hgate]
    have hsig : (e == Err.indexMiss || e == Err.noCachedData) = true := by
      rcases hmiss with rfl | rfl <;> rfl
    have hneidx : liveEngineOf env meta ≠ Engine.index :=
      liveEngineOf_ne_index env meta (by simp [hforce])
    have hlp : scrapeLivePath env meta true =
        (Except.ok ⟨liveEngineOf env meta,
           getUnsupportedFeatures meta.featureFlags (liveEngineOf env meta), pr, true⟩,
         Event.invokeEngine (liveEngineOf env meta) :: pevs) := by
      unfold scrapeLivePath
      rw [if_neg hact, if_neg hbrand, hlive]
      simp [hap]
    have hsel : selectEngineAndScrape env meta =
        (Except.ok ⟨liveEngineOf env meta,
           getUnsupportedFeatures meta.featureFlags (liveEngineOf env meta), pr, true⟩,
         Event.invokeEngine Engine.index :: Event.invokeEngine (liveEngineOf env meta) :: pevs) := by
      unfold selectEngineAndScrape
      rw [hne, hel, hie]
      simp [hsig, hlp]
    have hpevs0 : pevs.count (Event.invokeEngine (liveEngineOf env meta)) = 0 := by
      rw [List.count_eq_zero]
      intro hmem
      have hni := applySpecialtyParsing_no_invoke env meta (liveEngineOf env meta) rl
        (Event.invokeEngine (liveEngineOf env meta))
      rw [hap] at hni
      have := hni hmem
      simp [Event.isInvoke] at this
    have hcount : (Event.invokeEngine Engine.index ::
        Event.invokeEngine (liveEngineOf env meta) :: pevs).count
        (Event.invokeEngine (liveEngineOf env meta)) = 1 := by
      rw [List.count_cons, List.count_cons, hpevs0]
      simp [hneidx]
      intro hcontra
      exact absurd hcontra.symm hneidx
    refine ⟨hsel, hcount, ?_⟩
    have hbeq : (liveEngineOf env meta == Engine.index) = false := by
      simp [hneidx]
    unfold scrapeURLSingle
    simp only [hzdr, habort, Bool.false_eq_true, false_and, if_false]
    rw [hsel]
    refine ⟨_, rfl, ?_⟩
    simp [cacheMetadata, hbeq]
  · intro env meta e hforce hie hmiss
    have hne : (meta.internalOptions.forceEngine == some Engine.index) = true := by
      simp [hforce]
    unfold selectEngineAndScrape
    rw [hne, hie]
    simp

/-- An environment where the index engine misses and the live engine
succeeds. -/
def missEnv : Env :=
  { defaultEnv with runEngine := fun engine =>
      match engine with
      | Engine.index => Except.error Err.indexMiss
      | _ => Except.ok sampleResult }

/-- A request forced to the index engine. -/
def forcedIndexMeta : Meta :=
  mkMeta "https://example.com/" defaultOptions
    { defaultInternal with forceEngine := some Engine.index }

/-- Witness for the cache miss fallback: the eligible-request part at a
plain request over the missing-index environment, and the forced-index
part at the same environment. -/
theorem indexMiss_fallback_witness :
    (selectEngineAndScrape missEnv plainMeta =
      (Except.ok ⟨liveEngineOf missEnv plainMeta,
         getUnsupportedFeatures plainMeta.featureFlags (liveEngineOf missEnv plainMeta),
         sampleResult, true⟩,
       Event.invokeEngine Engine.index ::
         Event.invokeEngine (liveEngineOf missEnv plainMeta) :: []) ∧
     (Event.invokeEngine Engine.index ::
        Event.invokeEngine (liveEngineOf missEnv plainMeta) :: []).count
        (Event.invokeEngine (liveEngineOf missEnv plainMeta)) = 1 ∧
     ∃ doc, scrapeURLSingle missEnv plainMeta =
         (Except.ok doc,
          Event.invokeEngine Engine.index ::
            Event.invokeEngine (liveEngineOf missEnv plainMeta) :: []) ∧
       doc.metadata.cacheState = some CacheState.miss) ∧
    selectEngineAndScrape missEnv forcedIndexMeta =
      (Except.error Err.indexMiss, [Event.invokeEngine Engine.index]) :=
  ⟨indexMiss_fallback.1 missEnv plainMeta Err.indexMiss sampleResult sampleResult []
      rfl rfl rfl (Or.inl rfl) rfl rfl (by decide) (by decide) rfl rfl,
   indexMiss_fallback.2 missEnv forcedIndexMeta Err.indexMiss rfl rfl (Or.inl rfl)⟩

/-- The metadata of the document produced by the plain request over the
cached-index environment. -/
def hitDocMetadata : DocMetadata :=
  { sourceURL := "https://example.com/", url := "https://example.com/",
    statusCode := 200, error := none, numPages := none, title := none,
    contentType := some "text/html", proxyUsed := Proxy.basic,
    cacheState := some CacheState.hit, postprocessorsUsed := none }

/-- The document produced by the plain request over the cached-index
environment. -/
def hitDoc : Document :=
  { markdown := none, rawHtml := "<html></html>", screenshot := none,
    metadata := hitDocMetadata, warning := none }

/-- Witness for the cache state semantics: each cacheMetadata case at
concrete values, the indexAttempted equivalence at a concrete index hit,
and the document cache state equation at the same run. -/
theorem cacheState_semantics_witness :
    cacheMetadata true Engine.index (some 5) = some CacheState.hit ∧
    cacheMetadata false Engine.fetch none = none ∧
    cacheMetadata true Engine.fetch (some 3) = some CacheState.miss ∧
    (((⟨Engine.index, getUnsupportedFeatures plainMeta.featureFlags Engine.index,
        cachedResult, true⟩ : EngineOutcome).indexAttempted = true) ↔
      Event.invokeEngine Engine.index ∈ [Event.invokeEngine Engine.index]) ∧
    ∃ o, selectEngineAndScrape hitEnv plainMeta =
        (Except.ok o, [Event.invokeEngine Engine.index]) ∧
      hitDoc.metadata.cacheState = cacheMetadata o.indexAttempted o.engine
        ((runPostprocessors hitEnv.postprocessors o.result).1).cacheInfo :=
  ⟨(cacheState_semantics.1 true Engine.index (some 5)).1.mpr ⟨rfl, rfl, rfl⟩,
   (cacheState_semantics.1 false Engine.fetch none).2.1.mpr rfl,
   (cacheState_semantics.1 true Engine.fetch (some 3)).2.2 rfl (Or.inl (by decide)),
   cacheState_semantics.2.1 hitEnv plainMeta
     ⟨Engine.index, getUnsupportedFeatures plainMeta.featureFlags Engine.index,
       cachedResult, true⟩ [Event.invokeEngine Engine.index] rfl,
   cacheState_semantics.2.2 hitEnv plainMeta hitDoc [Event.invokeEngine Engine.index] rfl⟩

end Firecrawl
